import Mathlib

/-!
Verification development for the go-bexpr boolean-expression filtering
library.  The definitions below shallowly embed the Go sources
(`evaluate.go` for evaluation, the field-configuration generator file for
schema derivation).  Go's `(bool, error)` return pairs become `EvalRes.res b e`
with `e : Option String`; a Go panic (nil-pointer dereference, failed type
assertion, nil function call) is modelled as the explicit outcome `fault`.
-/

namespace Bexpr

/-- The six match operators (`MatchEqual` … `MatchIsNotEmpty`). -/
inductive MatchOperator where
  | matchEqual
  | matchNotEqual
  | matchIn
  | matchNotIn
  | matchIsEmpty
  | matchIsNotEmpty
deriving DecidableEq, Repr

/-- Primitive Go values of the kinds in `primitiveEqualityFns`
(bool, the signed and unsigned integer widths, string).  Machine integers
are carried as `Int`/`Nat`; the float kinds appear only at the type level
below (no claim touches float values). -/
inductive Prim where
  | boolP (b : Bool)
  | intP (n : Int)
  | int8P (n : Int)
  | int16P (n : Int)
  | int32P (n : Int)
  | int64P (n : Int)
  | uintP (n : Nat)
  | uint8P (n : Nat)
  | uint16P (n : Nat)
  | uint32P (n : Nat)
  | uint64P (n : Nat)
  | stringP (s : String)
deriving DecidableEq, Repr

/-- reflect.Kind name of a primitive value, for error messages. -/
def Prim.kindName : Prim → String
  | .boolP _ => "bool"
  | .intP _ => "int"
  | .int8P _ => "int8"
  | .int16P _ => "int16"
  | .int32P _ => "int32"
  | .int64P _ => "int64"
  | .uintP _ => "uint"
  | .uint8P _ => "uint8"
  | .uint16P _ => "uint16"
  | .uint32P _ => "uint32"
  | .uint64P _ => "uint64"
  | .stringP _ => "string"

/-- A Go data value as traversed by `evaluateMatchExpressionRecurse`.
Pointers are dereferenced transparently by the Go code
(`reflect.Indirect`), so the model has no pointer constructor; map keys
are strings (precondition 3 of the evaluator).  Values implementing
`ExpressionEvaluator` are outside the modelled fragment. -/
inductive GoValue where
  | prim (p : Prim)
  | listV (elems : List GoValue)
  | mapV (entries : List (String × GoValue))
  | structV (fields : List (String × GoValue))

/-- reflect.Kind name of a value, for error messages. -/
def GoValue.kindName : GoValue → String
  | .prim p => p.kindName
  | .listV _ => "slice"
  | .mapV _ => "map"
  | .structV _ => "struct"

/-- The `interface{}` produced by `getMatchExprValue`: Go `nil`, the
coerced (`Converted`) value, or the raw string. -/
inductive MatchValue where
  | nilV
  | convertedV (p : Prim)
  | rawV (s : String)
deriving DecidableEq, Repr

/-- `MatchExpr.Value`: the raw literal plus the optional coerced value. -/
structure MatchExprValue where
  raw : String
  converted : Option Prim
deriving DecidableEq, Repr

/-- A match expression: selector path, operator, optional value. -/
structure MatchExpr where
  selector : List String
  operator : MatchOperator
  value : Option MatchExprValue
deriving DecidableEq, Repr

/-- `getMatchExprValue`: nil when no value, else `Converted` when
present, else `Raw`. -/
def getMatchExprValue (e : MatchExpr) : MatchValue :=
  match e.value with
  | none => .nilV
  | some v =>
    match v.converted with
    | some c => .convertedV c
    | none => .rawV v.raw

/-- The `doEqual*` function selected from `primitiveEqualityFns` by the
value's kind, applied as `eqFn(matchValue, value)`.  Each `doEqual*`
type-asserts both arguments to its kind; a mismatched dynamic type (or a
nil match value against any kind) panics, modelled as `none`. -/
def doEqualForKind (mv : MatchValue) (p : Prim) : Option Bool :=
  match p, mv with
  | .boolP b, .convertedV (.boolP c) => some (c == b)
  | .intP n, .convertedV (.intP m) => some (m == n)
  | .int8P n, .convertedV (.int8P m) => some (m == n)
  | .int16P n, .convertedV (.int16P m) => some (m == n)
  | .int32P n, .convertedV (.int32P m) => some (m == n)
  | .int64P n, .convertedV (.int64P m) => some (m == n)
  | .uintP n, .convertedV (.uintP m) => some (m == n)
  | .uint8P n, .convertedV (.uint8P m) => some (m == n)
  | .uint16P n, .convertedV (.uint16P m) => some (m == n)
  | .uint32P n, .convertedV (.uint32P m) => some (m == n)
  | .uint64P n, .convertedV (.uint64P m) => some (m == n)
  | .stringP s, .convertedV (.stringP t) => some (t == s)
  | .stringP s, .rawV t => some (t == s)
  | _, _ => none

/-- Outcome of an evaluation step: the Go `(bool, error)` pair, or a panic. -/
inductive EvalRes where
  | res (b : Bool) (err : Option String)
  | fault
deriving DecidableEq, Repr

/-- The match value as a Go string, when its dynamic type is `string`. -/
def MatchValue.asString : MatchValue → Option String
  | .convertedV (.stringP s) => some s
  | .rawV s => some s
  | _ => none

/-- Whether `sub` occurs as a contiguous run inside `l`. -/
def charsContain (sub : List Char) : List Char → Bool
  | [] => sub.isEmpty
  | c :: rest => sub.isPrefixOf (c :: rest) || charsContain sub rest

/-- `strings.Contains(hay, sub)`. -/
def goStringsContains (hay sub : String) : Bool :=
  charsContain sub.toList hay.toList

/-- Rendering of `%q` applied to a selector slice, for error messages. -/
def quoteSelector (sel : List String) : String :=
  "[" ++ String.intercalate " " (sel.map (fun s => "\"" ++ s ++ "\"")) ++ "]"

/-- `doMatchEqual`: primitive equality via the kind-indexed table.  A
non-primitive value has no entry in `primitiveEqualityFns`, so the nil
function call panics. -/
def doMatchEqual (e : MatchExpr) (v : GoValue) : EvalRes :=
  match v with
  | .prim p =>
    match doEqualForKind (getMatchExprValue e) p with
    | some b => .res b none
    | none => .fault
  | _ => .fault

/-- The slice/array loop of `doMatchIn`: `eqFn(matchValue, item)` per
element, `true` on the first hit.  The per-element kind dispatch mirrors
Go's selection of `eqFn` from the (homogeneous) element type; a
non-primitive element means `eqFn` is nil and the call panics. -/
def doMatchInList (e : MatchExpr) : List GoValue → EvalRes
  | [] => .res false none
  | v :: rest =>
    match v with
    | .prim p =>
      match doEqualForKind (getMatchExprValue e) p with
      | some true => .res true none
      | some false => doMatchInList e rest
      | none => .fault
    | _ => .fault

/-- `doMatchIn`: key membership on maps, element equality on
slices/arrays, substring containment on strings, and a runtime error on
every other kind. -/
def doMatchIn (e : MatchExpr) (v : GoValue) : EvalRes :=
  match v with
  | .mapV entries =>
    match (getMatchExprValue e).asString with
    | some k => .res (entries.lookup k).isSome none
    | none => .fault
  | .listV elems => doMatchInList e elems
  | .prim (.stringP s) =>
    match (getMatchExprValue e).asString with
    | some sub => .res (goStringsContains s sub) none
    | none => .fault
  | _ =>
    .res false (some ("Cannot perform in/contains operations on type "
      ++ v.kindName ++ " for selector: " ++ quoteSelector e.selector))

/-- `doMatchIsEmpty`: `value.Len() == 0`; `Len` panics on kinds other
than map, slice/array and string. -/
def doMatchIsEmpty (_e : MatchExpr) (v : GoValue) : EvalRes :=
  match v with
  | .listV l => .res (l.length == 0) none
  | .mapV m => .res (m.length == 0) none
  | .prim (.stringP s) => .res (s.length == 0) none
  | _ => .fault

/-- Modelled from the spec: the coercion table (`primitiveCoercionFns`,
`CoerceString`) lives in a source file that only the generator references;
one tag per primitive kind of §3.1 stands in for the function value. -/
inductive CoerceKind where
  | coerceString
  | coerceBool
  | coerceInt
  | coerceInt8
  | coerceInt16
  | coerceInt32
  | coerceInt64
  | coerceUint
  | coerceUint8
  | coerceUint16
  | coerceUint32
  | coerceUint64
  | coerceFloat32
  | coerceFloat64
deriving DecidableEq, Repr

/-- `FieldConfiguration`: canonical struct field name, nested
sub-configurations, optional coercion function, supported operators.
(`FieldConfigurations`, Go's `map[FieldName]*FieldConfiguration`, is
modelled as an association list; a missing key stands for Go's nil
pointer.) -/
inductive FieldConfiguration where
  | mk (structFieldName : String)
      (subFields : List (String × FieldConfiguration))
      (coerceFn : Option CoerceKind)
      (supportedOperations : List MatchOperator)

abbrev FieldConfigurations := List (String × FieldConfiguration)

def FieldConfiguration.structFieldName : FieldConfiguration → String
  | .mk n _ _ _ => n

def FieldConfiguration.subFields : FieldConfiguration → FieldConfigurations
  | .mk _ s _ _ => s

def FieldConfiguration.coerceFn : FieldConfiguration → Option CoerceKind
  | .mk _ _ c _ => c

def FieldConfiguration.supportedOperations : FieldConfiguration → List MatchOperator
  | .mk _ _ _ ops => ops

/-- A value found by association-list lookup is smaller than the list,
for the termination of the traversal below. -/
theorem sizeOf_lookup_lt {l : List (String × GoValue)} {k : String} {v : GoValue}
    (h : l.lookup k = some v) : sizeOf v < sizeOf l := by
  induction l with
  | nil => simp [List.lookup] at h
  | cons hd tl ih =>
    obtain ⟨a, b⟩ := hd
    rw [List.lookup] at h
    split at h
    · cases h
      simp only [List.cons.sizeOf_spec, Prod.mk.sizeOf_spec]
      omega
    · have := ih h
      simp only [List.cons.sizeOf_spec]
      omega

mutual

/-- `evaluateMatchExpressionRecurse`: at terminal depth dispatch on the
operator (each negated operator negates its positive counterpart's
non-error result and forwards its error with `false`); otherwise descend
by kind — struct field lookup via the field configuration's
`StructFieldName`, existential iteration for slices/arrays, map lookup
with the absent-key defaults, and a runtime error for any other kind. -/
def evaluateMatchExpressionRecurse (e : MatchExpr) (depth : Nat) (v : GoValue)
    (fields : FieldConfigurations) : EvalRes :=
  if depth ≥ e.selector.length then
    match e.operator with
    | .matchEqual => doMatchEqual e v
    | .matchNotEqual =>
      match doMatchEqual e v with
      | .res r none => .res (!r) none
      | .res _ (some err) => .res false (some err)
      | .fault => .fault
    | .matchIn => doMatchIn e v
    | .matchNotIn =>
      match doMatchIn e v with
      | .res r none => .res (!r) none
      | .res _ (some err) => .res false (some err)
      | .fault => .fault
    | .matchIsEmpty => doMatchIsEmpty e v
    | .matchIsNotEmpty =>
      match doMatchIsEmpty e v with
      | .res r none => .res (!r) none
      | .res _ (some err) => .res false (some err)
      | .fault => .fault
  else
    match v with
    | .structV sfields =>
      match fields.lookup (e.selector.getD depth "") with
      | none => .fault
      | some fieldConfig =>
        let fieldName :=
          if fieldConfig.structFieldName != "" then fieldConfig.structFieldName
          else e.selector.getD depth ""
        match hv : sfields.lookup fieldName with
        | none => .fault
        | some value =>
          evaluateMatchExpressionRecurse e (depth + 1) value fieldConfig.subFields
    | .listV elems => evalMatchList e depth elems fields
    | .mapV entries =>
      match hv : entries.lookup (e.selector.getD depth "") with
      | none =>
        match e.operator with
        | .matchEqual | .matchIsNotEmpty | .matchIn => .res false none
        | _ => .res true none
      | some value =>
        match fields.lookup "" with
        | none => .fault
        | some anyConfig =>
          evaluateMatchExpressionRecurse e (depth + 1) value anyConfig.subFields
    | .prim p =>
      .res false (some ("Value at selector " ++ quoteSelector (e.selector.take depth)
        ++ " with type " ++ p.kindName ++ " does not support nested field selection"))
termination_by sizeOf v
decreasing_by
  · simp only [GoValue.structV.sizeOf_spec]
    have := sizeOf_lookup_lt hv
    omega
  · simp only [GoValue.listV.sizeOf_spec]
    omega
  · simp only [GoValue.mapV.sizeOf_spec]
    have := sizeOf_lookup_lt hv
    omega

/-- The slice/array loop of `evaluateMatchExpressionRecurse`: recurse on
each element at the same depth, return `(false, err)` on the first error,
`(true, nil)` on the first truthy result, `(false, nil)` when exhausted. -/
def evalMatchList (e : MatchExpr) (depth : Nat) :
    List GoValue → FieldConfigurations → EvalRes
  | [], _ => .res false none
  | item :: rest, fields =>
    match evaluateMatchExpressionRecurse e depth item fields with
    | .fault => .fault
    | .res _ (some err) => .res false (some err)
    | .res true none => .res true none
    | .res false none => evalMatchList e depth rest fields
termination_by l => sizeOf l
decreasing_by
  · simp only [List.cons.sizeOf_spec]
    omega
  · simp only [List.cons.sizeOf_spec]
    omega

end

/-- `evaluateMatchExpression`: dereference the datum and start the
traversal at depth 0 (the `ExpressionEvaluator` shortcut is outside the
modelled fragment). -/
def evaluateMatchExpression (e : MatchExpr) (datum : GoValue)
    (fields : FieldConfigurations) : EvalRes :=
  evaluateMatchExpressionRecurse e 0 datum fields

/-- The boolean-expression AST (`UnaryExpr`/`BinaryExpr`/`MatchExpr`
with their operator enums flattened into constructors). -/
inductive Expr where
  | unaryNot (operand : Expr)
  | binAnd (left right : Expr)
  | binOr (left right : Expr)
  | matchE (m : MatchExpr)

/-- `evaluate`: `Not` negates the boolean of the operand's pair and keeps
its error; `And`/`Or` return the left pair whenever its error is non-nil
or its boolean already decides the connective, else the right pair. -/
def evaluate : Expr → GoValue → FieldConfigurations → EvalRes
  | .unaryNot op, d, f =>
    match evaluate op d f with
    | .res b e => .res (!b) e
    | .fault => .fault
  | .binAnd l r, d, f =>
    match evaluate l d f with
    | .res b e => if e.isSome || b == false then .res b e else evaluate r d f
    | .fault => .fault
  | .binOr l r, d, f =>
    match evaluate l d f with
    | .res b e => if e.isSome || b == true then .res b e else evaluate r d f
    | .fault => .fault
  | .matchE m, d, f => evaluateMatchExpression m d f

mutual

/-- A Go type as inspected by the generator.  `evalT` stands for any
named type implementing `ExpressionEvaluator`, carrying what its
`FieldConfigurations()` method returns; `otherT` is any kind outside the
supported set (func, chan, complex, interface, …). -/
inductive GoType where
  | boolT
  | intT
  | int8T
  | int16T
  | int32T
  | int64T
  | uintT
  | uint8T
  | uint16T
  | uint32T
  | uint64T
  | float32T
  | float64T
  | stringT
  | mapT (key : GoType) (elem : GoType)
  | sliceT (elem : GoType)
  | arrayT (elem : GoType)
  | structT (fields : List StructField)
  | ptrT (t : GoType)
  | evalT (configs : List (String × FieldConfiguration))
  | otherT (kindName : String)

/-- The `reflect.StructField` fragment the generator reads: field name,
`bexpr` tag (`""` when absent), exportedness (`PkgPath == ""`), type. -/
inductive StructField where
  | mk (name : String) (tag : String) (exported : Bool) (fieldType : GoType)

end

def StructField.name : StructField → String
  | .mk n _ _ _ => n

def StructField.tag : StructField → String
  | .mk _ t _ _ => t

def StructField.exported : StructField → Bool
  | .mk _ _ e _ => e

def StructField.fieldType : StructField → GoType
  | .mk _ _ _ ft => ft

/-- `derefType`: strip any number of pointer indirections. -/
def derefType : GoType → GoType
  | .ptrT t => derefType t
  | t => t

/-- Modelled from the spec: the kind-indexed coercion table
`primitiveCoercionFns` (its source file is not among the sources; §3.1
and the generator's doc comment enumerate the primitive kinds). -/
def primitiveCoercionFn : GoType → Option CoerceKind
  | .boolT => some .coerceBool
  | .intT => some .coerceInt
  | .int8T => some .coerceInt8
  | .int16T => some .coerceInt16
  | .int32T => some .coerceInt32
  | .int64T => some .coerceInt64
  | .uintT => some .coerceUint
  | .uint8T => some .coerceUint8
  | .uint16T => some .coerceUint16
  | .uint32T => some .coerceUint32
  | .uint64T => some .coerceUint64
  | .float32T => some .coerceFloat32
  | .float64T => some .coerceFloat64
  | .stringT => some .coerceString
  | _ => none

/-- Outcome of a generator call: Go's `(value, error)` pair split into a
success, a non-nil error, or a panic. -/
inductive GenOutcome (α : Type) where
  | ok (val : α)
  | gerr (msg : String)
  | fault

/-- `strings.Split` on character lists, single-character separator: the
result always has one more group than there are separators. -/
def goSplitChars (sep : Char) : List Char → List (List Char)
  | [] => [[]]
  | c :: rest =>
    match goSplitChars sep rest with
    | [] => [[c]]
    | g :: gs => if c = sep then [] :: g :: gs else (c :: g) :: gs

/-- `strings.Split(s, sep)` for a one-character separator (the generator
splits tags on `","`). -/
def goSplit (s : String) (sep : Char) : List String :=
  (goSplitChars sep s.toList).map (fun cs => String.mk cs)

/-- Go map assignment `m[k] = v` on the association-list model. -/
def fcInsert (m : FieldConfigurations) (k : String) (v : FieldConfiguration) :
    FieldConfigurations :=
  match m with
  | [] => [(k, v)]
  | (k2, v2) :: rest => if k2 == k then (k, v) :: rest else (k2, v2) :: fcInsert rest k v

/-- The mutation `cfg.StructFieldName = field.Name`. -/
def FieldConfiguration.withStructFieldName : FieldConfiguration → String → FieldConfiguration
  | .mk _ s c ops, n => .mk n s c ops

/-- `derefType` never grows a type, for the termination of the generator. -/
theorem sizeOf_derefType_le (t : GoType) : sizeOf (derefType t) ≤ sizeOf t := by
  rw [derefType.eq_def]
  split
  · rename_i u
    have h := sizeOf_derefType_le u
    simp only [GoType.ptrT.sizeOf_spec]
    omega
  · exact le_refl _
termination_by sizeOf t
decreasing_by
  rename_i u h
  subst h
  simp only [GoType.ptrT.sizeOf_spec]
  omega

mutual

/-- `generateFieldConfigurationInternal`: `ExpressionEvaluator`
implementers supply their own sub-configurations; primitive kinds get
their coercion and `{Equal, NotEqual}`; maps, slices/arrays and structs
recurse; every remaining kind yields Go `nil` without error (`ok none`).
(The Go code tests the evaluator interface, then the coercion table, then
switches on compound kinds; the kind sets are disjoint, so matching the
compound constructors before the primitive catch-all is the same
dispatch.) -/
def generateFieldConfigurationInternal (rtype : GoType) :
    GenOutcome (Option FieldConfiguration) :=
  match rtype with
  | .evalT configs => .ok (some (.mk "" configs none []))
  | .mapT keyT elemT => generateMapFieldConfiguration (derefType keyT) (derefType elemT)
  | .sliceT elemT => generateSliceFieldConfiguration (derefType elemT)
  | .arrayT elemT => generateSliceFieldConfiguration (derefType elemT)
  | .structT sfields =>
    match generateStructFieldConfigurations sfields with
    | .gerr m => .gerr m
    | .fault => .fault
    | .ok subfields => .ok (some (.mk "" subfields none []))
  | t =>
    match primitiveCoercionFn t with
    | some c => .ok (some (.mk "" [] (some c) [.matchEqual, .matchNotEqual]))
    | none => .ok none
termination_by 2 * sizeOf rtype
decreasing_by
  · have hk := sizeOf_derefType_le keyT
    have he := sizeOf_derefType_le elemT
    simp only [GoType.mapT.sizeOf_spec]
    omega
  · have he := sizeOf_derefType_le elemT
    simp only [GoType.sliceT.sizeOf_spec]
    omega
  · have he := sizeOf_derefType_le elemT
    simp only [GoType.arrayT.sizeOf_spec]
    omega
  · simp only [GoType.structT.sizeOf_spec]
    omega

/-- `generateSliceFieldConfiguration`: primitive elements get the
element coercion and the four collection operators; otherwise derive the
element configuration and keep its sub-fields when non-empty. -/
def generateSliceFieldConfiguration (elemType : GoType) :
    GenOutcome (Option FieldConfiguration) :=
  match primitiveCoercionFn elemType with
  | some c =>
    .ok (some (.mk "" [] (some c)
      [.matchIn, .matchNotIn, .matchIsEmpty, .matchIsNotEmpty]))
  | none =>
    match generateFieldConfigurationInternal elemType with
    | .gerr m => .gerr m
    | .fault => .fault
    | .ok subfield =>
      let subs : FieldConfigurations :=
        match subfield with
        | some sf => if sf.subFields.length > 0 then sf.subFields else []
        | none => []
      .ok (some (.mk "" subs none [.matchIsEmpty, .matchIsNotEmpty]))
termination_by 2 * sizeOf elemType + 1
decreasing_by omega

/-- `generateMapFieldConfiguration`: string-keyed maps get
`CoerceString`, the four collection operators, and the wildcard
sub-field when the value type derives a non-nil configuration; other key
kinds admit only the emptiness operators. -/
def generateMapFieldConfiguration (keyType valueType : GoType) :
    GenOutcome (Option FieldConfiguration) :=
  match keyType with
  | .stringT =>
    match generateFieldConfigurationInternal valueType with
    | .gerr m => .gerr m
    | .fault => .fault
    | .ok subfield =>
      let subs : FieldConfigurations :=
        match subfield with
        | some sf => [("", sf)]
        | none => []
      .ok (some (.mk "" subs (some .coerceString)
        [.matchIsEmpty, .matchIsNotEmpty, .matchIn, .matchNotIn]))
  | _ =>
    .ok (some (.mk "" [] none [.matchIsEmpty, .matchIsNotEmpty]))
termination_by 2 * (sizeOf keyType + sizeOf valueType) + 1
decreasing_by omega

/-- `generateStructFieldConfigurations`: fold the field loop over an
initially empty map. -/
def generateStructFieldConfigurations (sfields : List StructField) :
    GenOutcome FieldConfigurations :=
  structFieldsLoop sfields []
termination_by 2 * sizeOf sfields + 1
decreasing_by omega

/-- The loop body of `generateStructFieldConfigurations`: unexported
fields are skipped (before the tag is read); a non-empty tag is split on
commas, a leading `"-"` part skips the field, otherwise the parts are
the selectable names; an absent tag uses the physical field name.  The
derived configuration gets `StructFieldName = field.Name` — dereferencing
a nil configuration (`ok none`, the unsupported-kind result), which is a
panic — and is bound under every selectable name. -/
def structFieldsLoop : List StructField → FieldConfigurations →
    GenOutcome FieldConfigurations
  | [], acc => .ok acc
  | .mk fname ftag fexported ftype :: rest, acc =>
    if !fexported then structFieldsLoop rest acc
    else
      let nameChoice : Option (List String) :=
        if ftag != "" then
          let parts := goSplit ftag ','
          if parts.headD "" == "-" then none else some parts
        else some [fname]
      match nameChoice with
      | none => structFieldsLoop rest acc
      | some fieldNames =>
        match generateFieldConfigurationInternal (derefType ftype) with
        | .gerr m => .gerr m
        | .fault => .fault
        | .ok none => .fault
        | .ok (some cfg) =>
          structFieldsLoop rest
            (fieldNames.foldl (fun m n => fcInsert m n (cfg.withStructFieldName fname)) acc)
termination_by l _ => 2 * sizeOf l
decreasing_by
  · simp only [List.cons.sizeOf_spec]
    omega
  · simp only [List.cons.sizeOf_spec]
    omega
  · have := sizeOf_derefType_le ftype
    simp only [List.cons.sizeOf_spec, StructField.mk.sizeOf_spec]
    omega
  · simp only [List.cons.sizeOf_spec]
    omega

end

/-- The schema error for a bad top-level type. -/
def invalidTopLevelTypeMsg : String :=
  "Invalid top level type - can only use structs, map[string]* or an ExpressionEvaluator"

/-- The schema error for a top-level map with non-string keys. -/
def mapKeysNotStringsMsg : String :=
  "Cannot generate FieldConfigurations for maps with keys that are not strings"

/-- Result of `generateFieldConfigurationsAndType`: the configurations
map (Go nil modelled as `none`), the dereferenced type, or an error or
panic. -/
inductive ConfigsResult where
  | ok (fields : Option FieldConfigurations) (rtype : GoType)
  | gerr (msg : String)
  | fault

/-- `generateFieldConfigurationsAndType`: dereference the top-level
type; an `ExpressionEvaluator` supplies its own configurations (the Go
code asserts on the incoming value, which succeeds exactly when the
underlying type implements the interface); structs derive their field
map; maps require string keys (the key is inspected without
dereferencing) and may yield a nil map when the value kind is
unsupported; anything else is an invalid top-level type. -/
def generateFieldConfigurationsAndType (topLevelType : GoType) : ConfigsResult :=
  let rtype := derefType topLevelType
  match rtype with
  | .evalT configs => .ok (some configs) rtype
  | .structT sfields =>
    match generateStructFieldConfigurations sfields with
    | .gerr m => .gerr m
    | .fault => .fault
    | .ok fields => .ok (some fields) rtype
  | .mapT keyT elemT =>
    match keyT with
    | .stringT =>
      match generateFieldConfigurationInternal (derefType elemT) with
      | .gerr m => .gerr m
      | .fault => .fault
      | .ok none => .ok none rtype
      | .ok (some field) => .ok (some [("", field)]) rtype
    | _ => .gerr mapKeysNotStringsMsg
  | _ => .gerr invalidTopLevelTypeMsg

/-- `GenerateFieldConfigurations`: the public wrapper, dropping the type. -/
def GenerateFieldConfigurations (topLevelType : GoType) :
    GenOutcome (Option FieldConfigurations) :=
  match generateFieldConfigurationsAndType topLevelType with
  | .ok fields _ => .ok fields
  | .gerr m => .gerr m
  | .fault => .fault

/-! ### Unfolding lemmas for the traversal -/

/-- At terminal depth the traversal dispatches on the operator. -/
theorem evalRecurse_terminal (e : MatchExpr) (depth : Nat) (v : GoValue)
    (fields : FieldConfigurations) (h : e.selector.length ≤ depth) :
    evaluateMatchExpressionRecurse e depth v fields =
      match e.operator with
      | .matchEqual => doMatchEqual e v
      | .matchNotEqual =>
        match doMatchEqual e v with
        | .res r none => .res (!r) none
        | .res _ (some err) => .res false (some err)
        | .fault => .fault
      | .matchIn => doMatchIn e v
      | .matchNotIn =>
        match doMatchIn e v with
        | .res r none => .res (!r) none
        | .res _ (some err) => .res false (some err)
        | .fault => .fault
      | .matchIsEmpty => doMatchIsEmpty e v
      | .matchIsNotEmpty =>
        match doMatchIsEmpty e v with
        | .res r none => .res (!r) none
        | .res _ (some err) => .res false (some err)
        | .fault => .fault := by
  cases v <;>
  · simp only [evaluateMatchExpressionRecurse]
    rw [if_pos (by omega)]

/-- Below terminal depth, a list value runs the element loop. -/
theorem evalRecurse_list (e : MatchExpr) (depth : Nat) (elems : List GoValue)
    (fields : FieldConfigurations) (h : depth < e.selector.length) :
    evaluateMatchExpressionRecurse e depth (.listV elems) fields =
      evalMatchList e depth elems fields := by
  simp only [evaluateMatchExpressionRecurse]
  rw [if_neg (by omega)]

/-- Below terminal depth, a map value with an absent key takes the
defaulted-answer branch. -/
theorem evalRecurse_map_absent (e : MatchExpr) (depth : Nat)
    (entries : List (String × GoValue)) (fields : FieldConfigurations)
    (h : depth < e.selector.length)
    (habs : entries.lookup (e.selector.getD depth "") = none) :
    evaluateMatchExpressionRecurse e depth (.mapV entries) fields =
      match e.operator with
      | .matchEqual | .matchIsNotEmpty | .matchIn => .res false none
      | _ => .res true none := by
  simp only [evaluateMatchExpressionRecurse]
  rw [if_neg (by omega)]
  split
  · rfl
  · rename_i value hv
    rw [habs] at hv
    exact Option.noConfusion hv

/-- The two defining equations of the element loop. -/
theorem evalMatchList_nil (e : MatchExpr) (depth : Nat) (fields : FieldConfigurations) :
    evalMatchList e depth [] fields = .res false none := by
  simp only [evalMatchList]

theorem evalMatchList_cons (e : MatchExpr) (depth : Nat) (item : GoValue)
    (rest : List GoValue) (fields : FieldConfigurations) :
    evalMatchList e depth (item :: rest) fields =
      match evaluateMatchExpressionRecurse e depth item fields with
      | .fault => .fault
      | .res _ (some err) => .res false (some err)
      | .res true none => .res true none
      | .res false none => evalMatchList e depth rest fields := by
  rw [evalMatchList.eq_def]

/-! ### Claims about the boolean connectives -/

/-- C3: an `And` node returns the left pair whenever it carries an error
or is `false`, and otherwise the right pair; an `Or` node returns the
left pair whenever it carries an error or is `true`, and otherwise the
right pair (so in those short-circuit cases the outcome is exactly the
left operand's outcome). -/
theorem and_or_short_circuit (a b : Expr) (d : GoValue) (f : FieldConfigurations) :
    (evaluate (.binAnd a b) d f =
      match evaluate a d f with
      | .res r (some err) => .res r (some err)
      | .res false none => .res false none
      | .res true none => evaluate b d f
      | .fault => .fault) ∧
    (evaluate (.binOr a b) d f =
      match evaluate a d f with
      | .res r (some err) => .res r (some err)
      | .res true none => .res true none
      | .res false none => evaluate b d f
      | .fault => .fault) := by
  constructor <;>
  · cases ha : evaluate a d f with
    | fault => simp [evaluate, ha]
    | res r err =>
      cases err with
      | some msg => simp [evaluate, ha]
      | none => cases r <;> simp [evaluate, ha]

/-- C6: `Not` negates the boolean of a non-error operand result; an
operand error passes through unchanged (the accompanying boolean is not
a valid answer). -/
theorem not_negation_and_error_passthrough (a : Expr) (d : GoValue)
    (f : FieldConfigurations) :
    (∀ r, evaluate a d f = .res r none →
      evaluate (.unaryNot a) d f = .res (!r) none) ∧
    (∀ r msg, evaluate a d f = .res r (some msg) →
      ∃ r2, evaluate (.unaryNot a) d f = .res r2 (some msg)) := by
  constructor
  · intro r h
    simp [evaluate, h]
  · intro r msg h
    exact ⟨!r, by simp [evaluate, h]⟩

/-- Witness for C6 at a concrete operand that evaluates to `(true, nil)`. -/
theorem not_negation_witness :
    evaluate (.unaryNot (.matchE ⟨[], .matchIsEmpty, none⟩)) (.listV []) [] =
      .res false none :=
  (not_negation_and_error_passthrough (.matchE ⟨[], .matchIsEmpty, none⟩)
    (.listV []) []).1 true
    (by simp [evaluate, evaluateMatchExpression, evaluateMatchExpressionRecurse,
      doMatchIsEmpty])

/-- C7: De Morgan duality of the evaluator, errors included:
`Not(And(a,b))` and `Or(Not a, Not b)` produce identical outcomes on
every datum, and dually for `Or`. -/
theorem de_morgan (a b : Expr) (d : GoValue) (f : FieldConfigurations) :
    (evaluate (.unaryNot (.binAnd a b)) d f =
      evaluate (.binOr (.unaryNot a) (.unaryNot b)) d f) ∧
    (evaluate (.unaryNot (.binOr a b)) d f =
      evaluate (.binAnd (.unaryNot a) (.unaryNot b)) d f) := by
  constructor <;>
  · cases ha : evaluate a d f with
    | fault => simp [evaluate, ha]
    | res r err =>
      cases err with
      | some msg => simp [evaluate, ha]
      | none => cases r <;> cases hb : evaluate b d f <;> simp [evaluate, ha, hb]

/-! ### Claims about the match traversal -/

/-- C1: when the selector step addresses a map and the key is absent,
`MatchEqual`, `MatchIn` and `MatchIsNotEmpty` evaluate to `false` and
`MatchNotEqual`, `MatchNotIn` and `MatchIsEmpty` to `true`, with no
error. -/
theorem absent_map_key_defaults (e : MatchExpr) (depth : Nat)
    (entries : List (String × GoValue)) (fields : FieldConfigurations)
    (hd : depth < e.selector.length)
    (habs : entries.lookup (e.selector.getD depth "") = none) :
    ((e.operator = .matchEqual ∨ e.operator = .matchIn ∨ e.operator = .matchIsNotEmpty) →
      evaluateMatchExpressionRecurse e depth (.mapV entries) fields = .res false none) ∧
    ((e.operator = .matchNotEqual ∨ e.operator = .matchNotIn ∨ e.operator = .matchIsEmpty) →
      evaluateMatchExpressionRecurse e depth (.mapV entries) fields = .res true none) := by
  have h := evalRecurse_map_absent e depth entries fields hd habs
  constructor <;> rintro (hop | hop | hop) <;> simp [h, hop]

/-- Witness for C1 at a one-step selector over the empty map. -/
theorem absent_map_key_witness :
    evaluateMatchExpressionRecurse ⟨["k"], .matchNotEqual, none⟩ 0 (.mapV []) [] =
      .res true none :=
  (absent_map_key_defaults ⟨["k"], .matchNotEqual, none⟩ 0 [] [] (by decide) rfl).2
    (Or.inl rfl)

/-- The result of a match does not depend on the operator stored in the
expression once the operator dispatch has happened. -/
theorem getMatchExprValue_op (e : MatchExpr) (o : MatchOperator) :
    getMatchExprValue {e with operator := o} = getMatchExprValue e := rfl

theorem doMatchEqual_op (e : MatchExpr) (o : MatchOperator) (v : GoValue) :
    doMatchEqual {e with operator := o} v = doMatchEqual e v := rfl

theorem doMatchInList_op (e : MatchExpr) (o : MatchOperator) :
    ∀ l : List GoValue, doMatchInList {e with operator := o} l = doMatchInList e l := by
  intro l
  induction l with
  | nil => rfl
  | cons v rest ih => cases v <;> simp [doMatchInList, getMatchExprValue_op, ih]

theorem doMatchIn_op (e : MatchExpr) (o : MatchOperator) (v : GoValue) :
    doMatchIn {e with operator := o} v = doMatchIn e v := by
  cases v with
  | prim p => cases p <;> rfl
  | listV elems => exact doMatchInList_op e o elems
  | mapV entries => rfl
  | structV sfields => rfl

theorem doMatchIsEmpty_op (e : MatchExpr) (o : MatchOperator) (v : GoValue) :
    doMatchIsEmpty {e with operator := o} v = doMatchIsEmpty e v := rfl

/-- C9: at terminal depth each negated operator returns the boolean
negation of its positive counterpart's result when that succeeds, and
`(false, same error)` when it errors. -/
theorem terminal_negation_pairs (e : MatchExpr) (depth : Nat) (v : GoValue)
    (fields : FieldConfigurations) (hterm : e.selector.length ≤ depth) :
    (∀ r, evaluateMatchExpressionRecurse {e with operator := .matchEqual} depth v fields
        = .res r none →
      evaluateMatchExpressionRecurse {e with operator := .matchNotEqual} depth v fields
        = .res (!r) none) ∧
    (∀ r msg, evaluateMatchExpressionRecurse {e with operator := .matchEqual} depth v fields
        = .res r (some msg) →
      evaluateMatchExpressionRecurse {e with operator := .matchNotEqual} depth v fields
        = .res false (some msg)) ∧
    (∀ r, evaluateMatchExpressionRecurse {e with operator := .matchIn} depth v fields
        = .res r none →
      evaluateMatchExpressionRecurse {e with operator := .matchNotIn} depth v fields
        = .res (!r) none) ∧
    (∀ r msg, evaluateMatchExpressionRecurse {e with operator := .matchIn} depth v fields
        = .res r (some msg) →
      evaluateMatchExpressionRecurse {e with operator := .matchNotIn} depth v fields
        = .res false (some msg)) ∧
    (∀ r, evaluateMatchExpressionRecurse {e with operator := .matchIsEmpty} depth v fields
        = .res r none →
      evaluateMatchExpressionRecurse {e with operator := .matchIsNotEmpty} depth v fields
        = .res (!r) none) ∧
    (∀ r msg, evaluateMatchExpressionRecurse {e with operator := .matchIsEmpty} depth v fields
        = .res r (some msg) →
      evaluateMatchExpressionRecurse {e with operator := .matchIsNotEmpty} depth v fields
        = .res false (some msg)) := by
  have hEq : evaluateMatchExpressionRecurse {e with operator := .matchEqual} depth v fields
      = doMatchEqual e v := by
    rw [evalRecurse_terminal {e with operator := .matchEqual} depth v fields hterm]
    exact doMatchEqual_op e .matchEqual v
  have hNe : evaluateMatchExpressionRecurse {e with operator := .matchNotEqual} depth v fields
      = (match doMatchEqual e v with
         | .res r none => .res (!r) none
         | .res _ (some err) => .res false (some err)
         | .fault => .fault) := by
    rw [evalRecurse_terminal {e with operator := .matchNotEqual} depth v fields hterm]
    rw [show doMatchEqual {e with operator := .matchNotEqual} v = doMatchEqual e v from
      doMatchEqual_op e .matchNotEqual v]
  have hIn : evaluateMatchExpressionRecurse {e with operator := .matchIn} depth v fields
      = doMatchIn e v := by
    rw [evalRecurse_terminal {e with operator := .matchIn} depth v fields hterm]
    exact doMatchIn_op e .matchIn v
  have hNotIn : evaluateMatchExpressionRecurse {e with operator := .matchNotIn} depth v fields
      = (match doMatchIn e v with
         | .res r none => .res (!r) none
         | .res _ (some err) => .res false (some err)
         | .fault => .fault) := by
    rw [evalRecurse_terminal {e with operator := .matchNotIn} depth v fields hterm]
    rw [show doMatchIn {e with operator := .matchNotIn} v = doMatchIn e v from
      doMatchIn_op e .matchNotIn v]
  have hEm : evaluateMatchExpressionRecurse {e with operator := .matchIsEmpty} depth v fields
      = doMatchIsEmpty e v := by
    rw [evalRecurse_terminal {e with operator := .matchIsEmpty} depth v fields hterm]
    exact doMatchIsEmpty_op e .matchIsEmpty v
  have hNotEm : evaluateMatchExpressionRecurse {e with operator := .matchIsNotEmpty} depth v fields
      = (match doMatchIsEmpty e v with
         | .res r none => .res (!r) none
         | .res _ (some err) => .res false (some err)
         | .fault => .fault) := by
    rw [evalRecurse_terminal {e with operator := .matchIsNotEmpty} depth v fields hterm]
    rw [show doMatchIsEmpty {e with operator := .matchIsNotEmpty} v = doMatchIsEmpty e v from
      doMatchIsEmpty_op e .matchIsNotEmpty v]
  refine ⟨?_, ?_, ?_, ?_, ?_, ?_⟩
  · intro r h
    rw [hEq] at h
    rw [hNe, h]
  · intro r msg h
    rw [hEq] at h
    rw [hNe, h]
  · intro r h
    rw [hIn] at h
    rw [hNotIn, h]
  · intro r msg h
    rw [hIn] at h
    rw [hNotIn, h]
  · intro r h
    rw [hEm] at h
    rw [hNotEm, h]
  · intro r msg h
    rw [hEm] at h
    rw [hNotEm, h]

/-- Witness for C9: `NotEqual` negates a successful `Equal` at a string
leaf. -/
theorem terminal_negation_witness :
    evaluateMatchExpressionRecurse ⟨[], .matchNotEqual, some ⟨"x", some (.stringP "x")⟩⟩ 0
      (.prim (.stringP "x")) [] = .res false none :=
  (terminal_negation_pairs ⟨[], .matchEqual, some ⟨"x", some (.stringP "x")⟩⟩ 0
      (.prim (.stringP "x")) [] (by decide)).1 true
    (by simp [evaluateMatchExpressionRecurse, doMatchEqual, doEqualForKind,
      getMatchExprValue])

/-- Element loop under error-free elements: the result is `(b, nil)`
where `b` is true exactly when some element evaluates to `(true, nil)`. -/
theorem evalMatchList_no_error (e : MatchExpr) (depth : Nat)
    (fields : FieldConfigurations) :
    ∀ l : List GoValue,
      (∀ v ∈ l, ∃ b, evaluateMatchExpressionRecurse e depth v fields = .res b none) →
      ∃ b, evalMatchList e depth l fields = .res b none ∧
        (b = true ↔ ∃ v ∈ l, evaluateMatchExpressionRecurse e depth v fields = .res true none) := by
  intro l
  induction l with
  | nil =>
    intro _
    exact ⟨false, evalMatchList_nil e depth fields, by simp⟩
  | cons v rest ih =>
    intro hall
    obtain ⟨bv, hbv⟩ := hall v (by simp)
    obtain ⟨b, hb, hiff⟩ := ih (fun u hu => hall u (by simp [hu]))
    cases bv with
    | true =>
      refine ⟨true, ?_, fun _ => ⟨v, by simp, hbv⟩, fun _ => rfl⟩
      rw [evalMatchList_cons, hbv]
    | false =>
      refine ⟨b, ?_, ?_, ?_⟩
      · rw [evalMatchList_cons, hbv]
        exact hb
      · intro h
        obtain ⟨u, hu, hres⟩ := hiff.1 h
        exact ⟨u, by simp [hu], hres⟩
      · rintro ⟨u, hu, hres⟩
        rcases List.mem_cons.mp hu with rfl | hu2
        · rw [hbv] at hres
          simp at hres
        · exact hiff.2 ⟨u, hu2, hres⟩

/-- Element loop: the first erroring element (after a false-no-error
prefix) decides the outcome as `(false, that error)`. -/
theorem evalMatchList_first_error (e : MatchExpr) (depth : Nat)
    (fields : FieldConfigurations) :
    ∀ (pre : List GoValue) (v : GoValue) (post : List GoValue) (r : Bool) (msg : String),
      (∀ u ∈ pre, evaluateMatchExpressionRecurse e depth u fields = .res false none) →
      evaluateMatchExpressionRecurse e depth v fields = .res r (some msg) →
      evalMatchList e depth (pre ++ v :: post) fields = .res false (some msg) := by
  intro pre
  induction pre with
  | nil =>
    intro v post r msg _ hv
    rw [List.nil_append, evalMatchList_cons, hv]
    cases r <;> rfl
  | cons u pre' ih =>
    intro v post r msg hpre hv
    rw [List.cons_append, evalMatchList_cons, hpre u (by simp)]
    exact ih v post r msg (fun w hw => hpre w (by simp [hw])) hv

/-- Element loop: the first element evaluating `(true, nil)` (after a
false-no-error prefix) decides the outcome as `(true, nil)`. -/
theorem evalMatchList_first_true (e : MatchExpr) (depth : Nat)
    (fields : FieldConfigurations) :
    ∀ (pre : List GoValue) (v : GoValue) (post : List GoValue),
      (∀ u ∈ pre, evaluateMatchExpressionRecurse e depth u fields = .res false none) →
      evaluateMatchExpressionRecurse e depth v fields = .res true none →
      evalMatchList e depth (pre ++ v :: post) fields = .res true none := by
  intro pre
  induction pre with
  | nil =>
    intro v post _ hv
    rw [List.nil_append, evalMatchList_cons, hv]
  | cons u pre' ih =>
    intro v post hpre hv
    rw [List.cons_append, evalMatchList_cons, hpre u (by simp)]
    exact ih v post (fun w hw => hpre w (by simp [hw])) hv

/-- C2: at a non-terminal selector position a slice/array is evaluated
existentially at the same depth: error-free elements give `(b, nil)` with
`b` true iff some element matches; the first element returning an error
(after a prefix of non-matching elements) makes the whole list return
`(false, that error)`; the first matching element (after such a prefix)
makes it return `(true, nil)`. -/
theorem list_existential_semantics (e : MatchExpr) (depth : Nat)
    (elems : List GoValue) (fields : FieldConfigurations)
    (hd : depth < e.selector.length) :
    ((∀ v ∈ elems, ∃ b, evaluateMatchExpressionRecurse e depth v fields = .res b none) →
      ∃ b, evaluateMatchExpressionRecurse e depth (.listV elems) fields = .res b none ∧
        (b = true ↔ ∃ v ∈ elems, evaluateMatchExpressionRecurse e depth v fields = .res true none)) ∧
    (∀ pre v post r msg, elems = pre ++ v :: post →
      (∀ u ∈ pre, evaluateMatchExpressionRecurse e depth u fields = .res false none) →
      evaluateMatchExpressionRecurse e depth v fields = .res r (some msg) →
      evaluateMatchExpressionRecurse e depth (.listV elems) fields = .res false (some msg)) ∧
    (∀ pre v post, elems = pre ++ v :: post →
      (∀ u ∈ pre, evaluateMatchExpressionRecurse e depth u fields = .res false none) →
      evaluateMatchExpressionRecurse e depth v fields = .res true none →
      evaluateMatchExpressionRecurse e depth (.listV elems) fields = .res true none) := by
  rw [evalRecurse_list e depth elems fields hd]
  refine ⟨evalMatchList_no_error e depth fields elems, ?_, ?_⟩
  · intro pre v post r msg helems hpre hv
    subst helems
    exact evalMatchList_first_error e depth fields pre v post r msg hpre hv
  · intro pre v post helems hpre hv
    subst helems
    exact evalMatchList_first_true e depth fields pre v post hpre hv

/-- Witness for C2: a singleton list whose element matches (via the
absent-key default) makes the list match. -/
theorem list_existential_witness :
    evaluateMatchExpressionRecurse ⟨["a"], .matchIsEmpty, none⟩ 0
      (.listV [.mapV []]) [] = .res true none :=
  (list_existential_semantics ⟨["a"], .matchIsEmpty, none⟩ 0 [.mapV []] []
    (by decide)).2.2 [] (.mapV []) [] rfl (by simp)
    (by simp [evaluateMatchExpressionRecurse])

/-! ### Claims about schema derivation -/

/-- C4: an unexported field carrying an explicit tag is nevertheless
omitted — the access check (`PkgPath != ""`) runs before the tag is read
— while for exported fields the configuration is bound under each
comma-separated alias and the tag `"-"` suppresses the field. -/
theorem unexported_tagged_field_omitted :
    generateStructFieldConfigurations [.mk "foo" "foo" false .stringT] = .ok [] ∧
    generateStructFieldConfigurations [.mk "Foo" "foo,alias" true .stringT] =
      .ok [("foo", .mk "Foo" [] (some .coerceString) [.matchEqual, .matchNotEqual]),
           ("alias", .mk "Foo" [] (some .coerceString) [.matchEqual, .matchNotEqual])] ∧
    generateStructFieldConfigurations [.mk "Secret" "-" true .stringT] = .ok [] := by
  refine ⟨?_, ?_, ?_⟩
  · simp [generateStructFieldConfigurations, structFieldsLoop]
  · have h1 : goSplit "foo,alias" ',' = ["foo", "alias"] := rfl
    simp [generateStructFieldConfigurations, structFieldsLoop,
      generateFieldConfigurationInternal, primitiveCoercionFn, derefType, fcInsert,
      FieldConfiguration.withStructFieldName, h1]
  · have h1 : goSplit "-" ',' = ["-"] := rfl
    simp [generateStructFieldConfigurations, structFieldsLoop, h1]

/-- C5: deriving a configuration for a value of unsupported kind yields
nil without error, but record-field derivation then sets
`StructFieldName` on that nil pointer, so deriving a schema for a record
containing such a field panics instead of completing. -/
theorem unsupported_field_kind_fault :
    generateFieldConfigurationInternal (.otherT "chan") = .ok none ∧
    generateFieldConfigurationsAndType (.structT [.mk "A" "" true (.otherT "chan")]) =
      .fault := by
  constructor
  · simp [generateFieldConfigurationInternal, primitiveCoercionFn]
  · simp [generateFieldConfigurationsAndType, derefType, generateStructFieldConfigurations,
      structFieldsLoop, generateFieldConfigurationInternal, primitiveCoercionFn]

/-- A top-level type that is not an evaluator, a struct, or a map (after
dereferencing) fails with the invalid-top-level error. -/
theorem gfcat_invalid_top_level (t : GoType)
    (h1 : ∀ c, derefType t ≠ .evalT c) (h2 : ∀ fs, derefType t ≠ .structT fs)
    (h3 : ∀ k v, derefType t ≠ .mapT k v) :
    generateFieldConfigurationsAndType t = .gerr invalidTopLevelTypeMsg := by
  unfold generateFieldConfigurationsAndType
  cases hd : derefType t <;>
    first
      | rfl
      | exact absurd hd (h1 _)
      | exact absurd hd (h2 _)
      | exact absurd hd (h3 _ _)

/-- A top-level map with a non-string key fails with the map-keys error. -/
theorem gfcat_map_nonstring_key (t k v : GoType) (hd : derefType t = .mapT k v)
    (hk : k ≠ .stringT) :
    generateFieldConfigurationsAndType t = .gerr mapKeysNotStringsMsg := by
  unfold generateFieldConfigurationsAndType
  rw [hd]
  cases k <;> first | rfl | exact absurd rfl hk

/-- C8 (amended): derivation succeeds only for evaluators, structs and
string-keyed maps; a map with non-string keys fails with the dedicated
map-keys schema error; every remaining type fails with the
invalid-top-level schema error. -/
theorem top_level_type_dispatch (t : GoType) :
    (∀ fields rt, generateFieldConfigurationsAndType t = .ok fields rt →
      (∃ c, derefType t = .evalT c) ∨ (∃ fs, derefType t = .structT fs) ∨
      (∃ elemT, derefType t = .mapT .stringT elemT)) ∧
    (∀ k v, derefType t = .mapT k v → k ≠ .stringT →
      generateFieldConfigurationsAndType t = .gerr mapKeysNotStringsMsg) ∧
    ((∀ c, derefType t ≠ .evalT c) → (∀ fs, derefType t ≠ .structT fs) →
      (∀ k v, derefType t ≠ .mapT k v) →
      generateFieldConfigurationsAndType t = .gerr invalidTopLevelTypeMsg) := by
  refine ⟨?_, gfcat_map_nonstring_key t, gfcat_invalid_top_level t⟩
  intro fields rt hok
  by_cases h1 : ∃ c, derefType t = .evalT c
  · exact Or.inl h1
  by_cases h2 : ∃ fs, derefType t = .structT fs
  · exact Or.inr (Or.inl h2)
  by_cases h3 : ∃ k v, derefType t = .mapT k v
  · obtain ⟨k, v, hd⟩ := h3
    by_cases hk : k = .stringT
    · subst hk
      exact Or.inr (Or.inr ⟨v, hd⟩)
    · rw [gfcat_map_nonstring_key t k v hd hk] at hok
      exact ConfigsResult.noConfusion hok
  · push_neg at h1 h2 h3
    rw [gfcat_invalid_top_level t h1 h2 h3] at hok
    exact ConfigsResult.noConfusion hok

/-- Counterexample to C8 as stated: a top-level `map[int]bool` is
outside the allowed set, yet its error is the map-keys message, not the
invalid-top-level one. -/
theorem map_int_keys_error_counterexample :
    generateFieldConfigurationsAndType (.mapT .intT .boolT) = .gerr mapKeysNotStringsMsg ∧
    mapKeysNotStringsMsg ≠ invalidTopLevelTypeMsg := by
  constructor
  · simp [generateFieldConfigurationsAndType, derefType]
  · decide

/-- Witness for C8 (amended) at a slice, which is not a valid top level. -/
theorem top_level_type_witness :
    generateFieldConfigurationsAndType (.sliceT .intT) = .gerr invalidTopLevelTypeMsg :=
  (top_level_type_dispatch (.sliceT .intT)).2.2
    (fun c h => by simp [derefType] at h)
    (fun fs h => by simp [derefType] at h)
    (fun k v h => by simp [derefType] at h)

/-- C10: a top-level string-keyed map whose value type derives a nil
configuration yields a nil configurations map and a nil error. -/
theorem map_unsupported_value_nil (elemT : GoType)
    (hnull : generateFieldConfigurationInternal (derefType elemT) = .ok none) :
    generateFieldConfigurationsAndType (.mapT .stringT elemT) =
      .ok none (.mapT .stringT elemT) := by
  simp [generateFieldConfigurationsAndType, derefType, hnull]

/-- Witness for C10 with a func-typed map value. -/
theorem map_unsupported_value_nil_witness :
    generateFieldConfigurationsAndType (.mapT .stringT (.otherT "func")) =
      .ok none (.mapT .stringT (.otherT "func")) :=
  map_unsupported_value_nil (.otherT "func")
    (by simp [generateFieldConfigurationInternal, derefType, primitiveCoercionFn])

end Bexpr
